import Mathlib

/-!
Verification of the `gracefully` service-lifecycle coordinator.

The definitions below are a shallow embedding of `service.go`:

* `GracefulAction`, `ManagerStateEnum` mirror the source enumerations.
* `removeSignaler` mirrors `ServiceManager.removeSignaler` (swap-with-last
  eviction), with the registry represented as a list of signaler identifiers.
* `buildSelectCases` mirrors `ServiceManager.buildSelectCases`.
* `waitStep` / `waitRun` / `wait` embed the body of `ServiceManager.Wait`:
  each loop iteration consumes one `WaitEvent` describing the outcome of the
  `reflect.Select` call (a closed channel, a delivered control function, or
  the completion channel becoming ready).  The side effects of an iteration
  (`setState`, `cancelFunc`, `Cancel` on a signaler, receiving from
  `waitForIteratorDone`) are recorded as an `Effect` trace.
* `workerStep` / `workerRun` / `startGoroutine` embed the goroutine body of
  `ServiceManager.Start`: each iteration consumes a `WIter` carrying the
  routine's returned `(action, err)` pair together with the manager states
  the goroutine observes at its two `s.State()` call sites (those states are
  written concurrently by `Wait`, so they are inputs of the embedding).

Go channel semantics that the embedding reproduces faithfully:

* `waitForIteratorDone` is a one-slot buffered `chan error` written exactly
  once, when the worker goroutine ends.  The `wait` embedding therefore takes
  the pushed value `w` as a parameter together with a `delivered` flag
  recording whether that single value has already been received.
* Receiving a nil `error` through `reflect.Select` yields a nil interface
  from `recv.Interface()`, and a nil interface matches neither
  `case SignalControl:` nor `case error:` of the type switch in `Wait`; the
  value is consumed from the channel and then ignored.  The
  `WaitEvent.doneRecv` branch reproduces this: for `w = none` it only marks
  the value as delivered.
* A blocking receive `err = <-s.waitForIteratorDone` after the single value
  has already been consumed never completes; the embedding marks the state
  `stuck` and `wait` never returns a result from such a run.
-/

namespace Gracefully

/-- Mirrors the `GracefulAction` enumeration of the source
(`GracefulContinue`, `GracefulRestart`, `GracefulStop`). -/
inductive GracefulAction : Type
  | GracefulContinue
  | GracefulRestart
  | GracefulStop
deriving DecidableEq, Repr

/-- Mirrors the `ManagerStateEnum` enumeration of the source. -/
inductive ManagerStateEnum : Type
  | Unconfigured
  | New
  | Running
  | Restarting
  | Dying
  | Dead
deriving DecidableEq, Repr

/-- Mirrors `ServiceManager.removeSignaler`: if `index` is in range, the last
element of the registry is copied into slot `index` and the list is truncated
by one; otherwise the registry is unchanged.  The Go function always returns
`false`, which is the second component. -/
def removeSignaler {α : Type} (l : List α) (index : Nat) : List α × Bool :=
  if h : index < l.length then
    ((l.set index (l.getLast (List.ne_nil_of_length_pos
        (Nat.lt_of_le_of_lt (Nat.zero_le index) h)))).dropLast, false)
  else
    (l, false)

/-- One entry of the receive set built by `ServiceManager.buildSelectCases`:
either a registered signaler's channel or the worker's completion channel. -/
inductive SelectCase : Type
  | signaler (id : Nat)
  | iteratorDone
deriving DecidableEq, Repr

/-- Mirrors `ServiceManager.buildSelectCases`: one receive case per registered
signaler, in registry order, followed by the completion channel. -/
def buildSelectCases (sigs : List Nat) : List SelectCase :=
  sigs.map SelectCase.signaler ++ [SelectCase.iteratorDone]

/-- A side effect performed by one iteration of the `Wait` loop (or by its
epilogue), in program order. -/
inductive Effect : Type
  | setState (st : ManagerStateEnum)
  | cancelCtx
  | cancelSignaler (id : Nat)
  | recvDone
deriving DecidableEq, Repr

/-- Mirrors `ServiceManager.cancelSignalers`: call `Cancel` on every signaler
currently in the registry, in registry order. -/
def cancelSignalers (sigs : List Nat) : List Effect :=
  sigs.map Effect.cancelSignaler

/-- The state of the caller thread executing `ServiceManager.Wait`, together
with the registry and manager state it manipulates.  `err` is the local `err`
variable, `running` the loop flag.  `delivered` records whether the single
value the worker pushes onto `waitForIteratorDone` has already been received;
`stuck` records that the thread entered a blocking receive on an already
emptied completion channel, which never completes. -/
structure WaitState (ε : Type) : Type where
  signalers : List Nat
  state : ManagerStateEnum
  err : Option ε
  running : Bool
  delivered : Bool
  stuck : Bool
deriving DecidableEq, Repr

/-- The outcome of one `reflect.Select` call in `Wait`:
`closed chosen` — the channel of case `chosen` was observed closed
(`ok = false`); `control f` — a signaler delivered the control function `f`
(invoked with the manager, here represented by the `WaitState`);
`doneRecv` — the completion channel was selected and its single value
received. -/
inductive WaitEvent (ε : Type) : Type
  | closed (chosen : Nat)
  | control (f : WaitState ε → GracefulAction)
  | doneRecv

/-- One iteration of the `Wait` loop body of `service.go`, processing the
outcome of `reflect.Select`.  `w` is the value the worker goroutine pushes
onto `waitForIteratorDone` when it terminates (`none` for a clean exit).

Faithfulness notes:
* `closed`: evict via `removeSignaler`; if the registry became empty the loop
  `break`s (modelled as `running := false`) without touching `err`, the
  state, or the completion channel.
* `control f`: the type switch matched `case SignalControl:`; `f` is invoked
  with the manager and its result drives the inner switch exactly as in the
  source (`GracefulContinue` no-op; `GracefulRestart` sets `Restarting` then
  cancels the context; `GracefulStop` sets `Dying`, cancels the context,
  cancels every registered signaler, then blocks on `waitForIteratorDone`).
  If the completion value was already consumed, that final receive blocks
  forever (`stuck`).
* `doneRecv`: the completion channel delivered its value.  For `w = some v`
  the type switch matches `case error:` and the branch runs
  (`cancelSignalers`, `cancelFunc`, capture, exit).  For `w = none` the
  received `recv.Interface()` is a nil interface which matches neither
  `case SignalControl:` nor `case error:`, so the value is consumed and
  nothing else happens. -/
def waitStep {ε : Type} (w : Option ε) (s : WaitState ε) :
    WaitEvent ε → WaitState ε × List Effect
  | WaitEvent.closed chosen =>
      let sigs2 := (removeSignaler s.signalers chosen).1
      if sigs2.length = 0 then
        ({ s with signalers := sigs2, running := false }, [])
      else
        ({ s with signalers := sigs2 }, [])
  | WaitEvent.control f =>
      match f s with
      | GracefulAction.GracefulContinue => (s, [])
      | GracefulAction.GracefulRestart =>
          ({ s with state := ManagerStateEnum.Restarting },
            [Effect.setState ManagerStateEnum.Restarting, Effect.cancelCtx])
      | GracefulAction.GracefulStop =>
          if s.delivered then
            ({ s with state := ManagerStateEnum.Dying, stuck := true },
              Effect.setState ManagerStateEnum.Dying :: Effect.cancelCtx ::
                cancelSignalers s.signalers)
          else
            ({ s with
                state := ManagerStateEnum.Dying
                err := w
                delivered := true
                running := false },
              Effect.setState ManagerStateEnum.Dying :: Effect.cancelCtx ::
                (cancelSignalers s.signalers ++ [Effect.recvDone]))
  | WaitEvent.doneRecv =>
      if s.delivered then
        (s, [])
      else
        match w with
        | some v =>
            ({ s with
                err := some v
                delivered := true
                running := false },
              cancelSignalers s.signalers ++ [Effect.cancelCtx])
        | none =>
            ({ s with delivered := true }, [])

/-- The `for running { ... }` loop of `Wait`, consuming the given sequence of
select outcomes.  A run stops consuming events once the loop flag is cleared
or the thread is stuck in a blocking receive. -/
def waitRun {ε : Type} (w : Option ε) :
    WaitState ε → List (WaitEvent ε) → WaitState ε × List Effect
  | s, [] => (s, [])
  | s, ev :: evs =>
      if s.running && !s.stuck then
        let p := waitStep w s ev
        let q := waitRun w p.1 evs
        (q.1, p.2 ++ q.2)
      else (s, [])

/-- The `WaitState` at entry of `Wait`: registry and manager state as left by
registration and `Start`, local `err` nil, loop running, completion value not
yet received. -/
def initWaitState {ε : Type} (sigs : List Nat) (st : ManagerStateEnum) :
    WaitState ε :=
  { signalers := sigs, state := st, err := none, running := true,
    delivered := false, stuck := false }

/-- `ServiceManager.Wait` under the event sequence `evs`: run the loop; if it
exited, perform the epilogue `s.setState(Dead)` and return the captured
error together with the final manager state and the full effect trace.
`none` means the call has not returned (the loop is still blocked in a
select, or stuck in the stop branch's receive). -/
def wait {ε : Type} (w : Option ε) (sigs : List Nat) (st : ManagerStateEnum)
    (evs : List (WaitEvent ε)) :
    Option (Option ε × ManagerStateEnum × List Effect) :=
  let p := waitRun w (initWaitState sigs st) evs
  if p.1.running then none
  else some (p.1.err, ManagerStateEnum.Dead,
    p.2 ++ [Effect.setState ManagerStateEnum.Dead])

/-- A side effect performed by the worker goroutine launched by
`ServiceManager.Start`.  Execution contexts are identified by generation
numbers: generation 0 is the context created by `Start` itself, and each
replacement in the restart path creates the next generation. -/
inductive WEffect (ε : Type) : Type
  | invoke (gen : Nat)
  | ctxCancel (gen : Nat)
  | ctxNew (gen : Nat)
  | pushDone (e : Option ε)
  | stateSet (st : ManagerStateEnum)
deriving DecidableEq, Repr

/-- One completed iteration of the worker loop, as seen by the goroutine:
the `(action, err)` pair returned by the user routine, plus the manager
states the goroutine observes at its two `s.State()` call sites (those are
written concurrently by `Wait`, so they are environment inputs).
`stateAtCheck` is the value of `s.State()` at the `!= Running` guard of the
`GracefulContinue` branch; `stateAtDone` is the value read inside the
`select` after `subCtx.Done()` fired (only reached when `stateAtCheck` was
`Running`, and only once some holder of `cancelFunc` cancelled the
context). -/
structure WIter (ε : Type) : Type where
  action : GracefulAction
  rerr : Option ε
  stateAtCheck : ManagerStateEnum
  stateAtDone : ManagerStateEnum
deriving DecidableEq, Repr

/-- Convenience constructor for `WIter`. -/
def mkIter {ε : Type} (a : GracefulAction) (e : Option ε)
    (s1 s2 : ManagerStateEnum) : WIter ε :=
  { action := a, rerr := e, stateAtCheck := s1, stateAtDone := s2 }

/-- The goroutine's local state: the generation of the context currently
bound to `subCtx`, the loop flag, and the local `err` variable (which always
holds the error of the most recent routine invocation). -/
structure WorkerState (ε : Type) : Type where
  ctxGen : Nat
  running : Bool
  err : Option ε
deriving DecidableEq, Repr

/-- One iteration of the `for running { ... }` loop in the goroutine body of
`ServiceManager.Start`.  The iteration always begins by invoking the routine
with the current context and overwriting the local `err`.  The switch on the
returned action then follows `service.go` exactly:
* `GracefulContinue`: if the observed state is not `Running` the loop ends;
  otherwise the goroutine blocks on `subCtx.Done()` and, once it fires,
  re-reads the state — `Restarting` cancels the old context, creates a fresh
  one and re-loops; every other state ends the loop.
* `GracefulStop`: the loop ends.
* `GracefulRestart`: nothing is done; the routine is simply re-invoked with
  the same context. -/
def workerStep {ε : Type} (s : WorkerState ε) (it : WIter ε) :
    WorkerState ε × List (WEffect ε) :=
  let s1 : WorkerState ε := { s with err := it.rerr }
  let inv : List (WEffect ε) := [WEffect.invoke s.ctxGen]
  match it.action with
  | GracefulAction.GracefulContinue =>
      if it.stateAtCheck ≠ ManagerStateEnum.Running then
        ({ s1 with running := false }, inv)
      else
        match it.stateAtDone with
        | ManagerStateEnum.Restarting =>
            ({ s1 with ctxGen := s.ctxGen + 1 },
              inv ++ [WEffect.ctxCancel s.ctxGen, WEffect.ctxNew (s.ctxGen + 1)])
        | _ => ({ s1 with running := false }, inv)
  | GracefulAction.GracefulStop => ({ s1 with running := false }, inv)
  | GracefulAction.GracefulRestart => (s1, inv)

/-- The worker loop, consuming completed iterations while the loop flag is
set. -/
def workerRun {ε : Type} :
    WorkerState ε → List (WIter ε) → WorkerState ε × List (WEffect ε)
  | s, [] => (s, [])
  | s, it :: its =>
      if s.running then
        let p := workerStep s it
        let q := workerRun p.1 its
        (q.1, p.2 ++ q.2)
      else (s, [])

/-- `ServiceManager.Start` plus the goroutine it launches, under the iteration
sequence `its`: `Start` creates context generation 0, the goroutine sets the
state to `Running`, runs the loop, and — if the loop ended — pushes the final
`err` onto `waitForIteratorDone` exactly once before ending. -/
def startGoroutine {ε : Type} (its : List (WIter ε)) :
    WorkerState ε × List (WEffect ε) :=
  let s0 : WorkerState ε := { ctxGen := 0, running := true, err := none }
  let p := workerRun s0 its
  if p.1.running then
    (p.1, WEffect.ctxNew 0 :: WEffect.stateSet ManagerStateEnum.Running :: p.2)
  else
    (p.1, (WEffect.ctxNew 0 :: WEffect.stateSet ManagerStateEnum.Running :: p.2)
      ++ [WEffect.pushDone p.1.err])

/-- The generations of the execution contexts issued in a worker effect
trace, in order of creation. -/
def gensOf {ε : Type} (tr : List (WEffect ε)) : List Nat :=
  tr.filterMap (fun e =>
    match e with
    | WEffect.ctxNew g => some g
    | _ => none)

/-- Recognizes the send on `waitForIteratorDone` in a worker effect trace. -/
def isPushDone {ε : Type} : WEffect ε → Bool
  | WEffect.pushDone _ => true
  | _ => false

/-! ### Lemmas about `removeSignaler` -/

theorem removeSignaler_snd {α : Type} (l : List α) (i : Nat) :
    (removeSignaler l i).2 = false := by
  unfold removeSignaler
  split <;> rfl

theorem removeSignaler_of_le {α : Type} (l : List α) (i : Nat)
    (h : l.length ≤ i) : (removeSignaler l i).1 = l := by
  unfold removeSignaler
  rw [dif_neg (by omega)]

theorem removeSignaler_eq_of_lt {α : Type} (l : List α) (i : Nat)
    (h : i < l.length) :
    (removeSignaler l i).1 =
      (l.set i (l.getLast (List.ne_nil_of_length_pos
        (Nat.lt_of_le_of_lt (Nat.zero_le i) h)))).dropLast := by
  unfold removeSignaler
  rw [dif_pos h]

theorem removeSignaler_length {α : Type} (l : List α) (i : Nat)
    (h : i < l.length) :
    (removeSignaler l i).1.length = l.length - 1 := by
  rw [removeSignaler_eq_of_lt l i h]
  simp

theorem removeSignaler_getElem? {α : Type} (l : List α) (i : Nat)
    (h : i < l.length) (j : Nat) (hj : j < l.length - 1) :
    (removeSignaler l i).1[j]? =
      if i = j then l[l.length - 1]? else l[j]? := by
  rw [removeSignaler_eq_of_lt l i h]
  have hj2 : j < ((l.set i (l.getLast (List.ne_nil_of_length_pos
      (Nat.lt_of_le_of_lt (Nat.zero_le i) h)))).dropLast).length := by
    simpa using hj
  rw [List.getElem?_eq_getElem hj2]
  rw [List.getElem_dropLast]
  rw [List.getElem_set]
  have hlast : l.getLast (List.ne_nil_of_length_pos
      (Nat.lt_of_le_of_lt (Nat.zero_le i) h)) = l[l.length - 1] := by
    rw [List.getLast_eq_getElem]
  by_cases hij : i = j
  · simp only [if_pos hij]
    rw [hlast, List.getElem?_eq_getElem (by omega)]
  · simp only [if_neg hij]
    rw [List.getElem?_eq_getElem (by omega)]

theorem removeSignaler_perm {α : Type} (l : List α) (i : Nat)
    (h : i < l.length) :
    List.Perm (removeSignaler l i).1 (l.eraseIdx i) := by
  have hne : l ≠ [] :=
    List.ne_nil_of_length_pos (Nat.lt_of_le_of_lt (Nat.zero_le i) h)
  rw [removeSignaler_eq_of_lt l i h, List.eraseIdx_eq_take_drop_succ]
  rw [List.set_eq_take_cons_drop _ h, List.dropLast_eq_take]
  have hlen : (l.take i ++ l.getLast hne :: l.drop (i + 1)).length = l.length := by
    simp
    omega
  rw [hlen, List.take_append_eq_append_take]
  have hti : (l.take i).length = i := by
    simp
    omega
  rw [List.take_of_length_le (by rw [hti]; omega), hti]
  apply List.Perm.append_left
  by_cases hi : i = l.length - 1
  · have h0 : l.length - 1 - i = 0 := by omega
    have hD : l.drop (i + 1) = [] := List.drop_eq_nil_of_le (by omega)
    rw [h0, hD]
    simp
  · have hpos : l.length - 1 - i = (l.length - 2 - i) + 1 := by omega
    rw [hpos, List.take_succ_cons]
    have hdlen : (l.drop (i + 1)).length = l.length - (i + 1) := by simp
    have hdne : l.drop (i + 1) ≠ [] := by
      intro hnil
      rw [hnil] at hdlen
      simp at hdlen
      omega
    have hdl : (l.drop (i + 1)).take (l.length - 2 - i) =
        (l.drop (i + 1)).dropLast := by
      rw [List.dropLast_eq_take, hdlen]
      congr 1
      omega
    rw [hdl]
    have hlast : (l.drop (i + 1)).getLast hdne = l.getLast hne := by
      rw [List.getLast_eq_getElem, List.getLast_eq_getElem, List.getElem_drop]
      congr 1
      rw [hdlen]
      omega
    have hstep : List.Perm (l.getLast hne :: (l.drop (i + 1)).dropLast)
        ((l.drop (i + 1)).dropLast ++ [l.getLast hne]) :=
      (List.perm_append_singleton _ _).symm
    have heq : (l.drop (i + 1)).dropLast ++ [l.getLast hne] = l.drop (i + 1) := by
      rw [← hlast]
      exact List.dropLast_append_getLast hdne
    refine hstep.trans ?_
    rw [heq]

theorem removeSignaler_nodup {α : Type} (l : List α) (i : Nat)
    (hnd : l.Nodup) : (removeSignaler l i).1.Nodup := by
  by_cases h : i < l.length
  · exact (removeSignaler_perm l i h).nodup_iff.mpr
      ((List.eraseIdx_sublist l i).nodup hnd)
  · rw [removeSignaler_of_le l i (by omega)]
    exact hnd

theorem removeSignaler_subset {α : Type} (l : List α) (i : Nat) :
    ∀ x ∈ (removeSignaler l i).1, x ∈ l := by
  intro x hx
  by_cases h : i < l.length
  · exact (List.eraseIdx_sublist l i).mem
      (((removeSignaler_perm l i h).mem_iff).mp hx)
  · rw [removeSignaler_of_le l i (by omega)] at hx
    exact hx

theorem getElem_not_mem_eraseIdx {α : Type} [DecidableEq α] (l : List α)
    (i : Nat) (h : i < l.length) (hnd : l.Nodup) :
    l[i] ∉ l.eraseIdx i := by
  intro hmem
  have hsplit : l = l.take i ++ l[i] :: l.drop (i + 1) := by
    conv_lhs => rw [← List.take_append_drop i l]
    rw [List.getElem_cons_drop]
  have hcount : l.count l[i] ≤ 1 := List.nodup_iff_count_le_one.mp hnd l[i]
  rw [List.eraseIdx_eq_take_drop_succ] at hmem
  have hcount2 : 1 ≤ (l.take i ++ l.drop (i + 1)).count l[i] :=
    List.one_le_count_iff.mpr hmem
  rw [List.count_append] at hcount2
  have hcount3 :
      (l.take i).count l[i] + ((l.drop (i + 1)).count l[i] + 1) =
        l.count l[i] := by
    rw [← List.count_cons_self (l[i]) (l.drop (i + 1)), ← List.count_append]
    rw [← hsplit]
  omega

theorem getElem_not_mem_removeSignaler {α : Type} [DecidableEq α]
    (l : List α) (i : Nat) (h : i < l.length) (hnd : l.Nodup) :
    l[i] ∉ (removeSignaler l i).1 := by
  intro hmem
  exact getElem_not_mem_eraseIdx l i h hnd
    (((removeSignaler_perm l i h).mem_iff).mp hmem)

/-- Claim C9: `removeSignaler` leaves the registry unchanged when the index is
out of range; at a valid index it removes exactly the element at that
position (the last element moves into its slot, every other element keeps its
position), shortening the registry by one; and it always returns `false`. -/
theorem removeSignaler_spec {α : Type} (l : List α) (i : Nat) :
    (removeSignaler l i).2 = false ∧
    (l.length ≤ i → (removeSignaler l i).1 = l) ∧
    (i < l.length →
      (removeSignaler l i).1.length = l.length - 1 ∧
      List.Perm (removeSignaler l i).1 (l.eraseIdx i) ∧
      ∀ j, j < l.length - 1 →
        (removeSignaler l i).1[j]? =
          if i = j then l[l.length - 1]? else l[j]?) :=
  ⟨removeSignaler_snd l i,
   fun h => removeSignaler_of_le l i h,
   fun h => ⟨removeSignaler_length l i h, removeSignaler_perm l i h,
     fun j hj => removeSignaler_getElem? l i h j hj⟩⟩

/-- Witness for C9 at the registry `[10, 20, 30]`. -/
theorem removeSignaler_spec_witness :
    (removeSignaler [10, 20, 30] 5).1 = [10, 20, 30] ∧
    (removeSignaler [10, 20, 30] 1).1.length = 2 ∧
    (removeSignaler [10, 20, 30] 1).1[1]? =
      if 1 = 1 then [10, 20, 30][2]? else [10, 20, 30][1]? :=
  ⟨(removeSignaler_spec [10, 20, 30] 5).2.1 (by decide),
   ((removeSignaler_spec [10, 20, 30] 1).2.2 (by decide)).1,
   ((removeSignaler_spec [10, 20, 30] 1).2.2 (by decide)).2.2 1 (by decide)⟩

/-! ### Lemmas about the `Wait` loop -/

theorem cancelSignalers_count_recvDone (sigs : List Nat) :
    (cancelSignalers sigs).count Effect.recvDone = 0 := by
  rw [List.count_eq_zero]
  simp [cancelSignalers]

theorem signaler_mem_buildSelectCases (sigs : List Nat) (n : Nat) :
    SelectCase.signaler n ∈ buildSelectCases sigs ↔ n ∈ sigs := by
  simp [buildSelectCases]

theorem waitRun_halted {ε : Type} (w : Option ε) (s : WaitState ε)
    (evs : List (WaitEvent ε)) (h : s.running = false ∨ s.stuck = true) :
    waitRun w s evs = (s, []) := by
  cases evs with
  | nil => rfl
  | cons ev evs =>
      have hc : (s.running && !s.stuck) = false := by
        rcases h with h | h <;> simp [h]
      simp [waitRun, hc]

theorem waitRun_append {ε : Type} (w : Option ε) (s : WaitState ε)
    (evs1 evs2 : List (WaitEvent ε)) :
    waitRun w s (evs1 ++ evs2) =
      ((waitRun w (waitRun w s evs1).1 evs2).1,
        (waitRun w s evs1).2 ++ (waitRun w (waitRun w s evs1).1 evs2).2) := by
  induction evs1 generalizing s with
  | nil => simp [waitRun]
  | cons ev evs ih =>
      by_cases h : (s.running && !s.stuck) = true
      · simp only [List.cons_append, waitRun, h, if_true]
        rw [List.append_eq, ih]
        simp [List.append_assoc]
      · have h2 : s.running = false ∨ s.stuck = true := by
          revert h
          cases s.running <;> cases s.stuck <;> simp
        rw [waitRun_halted w s _ h2, waitRun_halted w s _ h2,
          waitRun_halted w s _ h2]
        simp

theorem waitStep_recvDone {ε : Type} (w : Option ε) (s : WaitState ε)
    (ev : WaitEvent ε) :
    (waitStep w s ev).2.count Effect.recvDone = 0 ∨
    ((waitStep w s ev).2.count Effect.recvDone = 1 ∧
      (waitStep w s ev).1.running = false) := by
  cases ev with
  | closed chosen =>
      by_cases h : ((removeSignaler s.signalers chosen).1.length = 0) <;>
        simp [waitStep, h]
  | control f =>
      cases hf : f s with
      | GracefulContinue => simp [waitStep, hf]
      | GracefulRestart => simp [waitStep, hf]
      | GracefulStop =>
          by_cases hd : s.delivered
          · left
            simp [waitStep, hf, hd, List.count_cons,
              cancelSignalers_count_recvDone]
          · right
            simp [waitStep, hf, hd, List.count_cons, List.count_append,
              cancelSignalers_count_recvDone]
  | doneRecv =>
      by_cases hd : s.delivered
      · simp [waitStep, hd]
      · cases w with
        | none => simp [waitStep, hd]
        | some v =>
            simp [waitStep, hd, List.count_append, List.count_cons,
              cancelSignalers_count_recvDone]

theorem waitRun_recvDone_le_one {ε : Type} (w : Option ε) (s : WaitState ε)
    (evs : List (WaitEvent ε)) :
    (waitRun w s evs).2.count Effect.recvDone ≤ 1 := by
  induction evs generalizing s with
  | nil => simp [waitRun]
  | cons ev evs ih =>
      by_cases h : (s.running && !s.stuck) = true
      · simp only [waitRun, h, if_true]
        rcases waitStep_recvDone w s ev with h0 | ⟨h1, hr⟩
        · simp [List.count_append, h0]
          exact ih _
        · rw [waitRun_halted w _ evs (Or.inl hr)]
          simp [List.count_append, h1]
      · have h2 : s.running = false ∨ s.stuck = true := by
          revert h
          cases s.running <;> cases s.stuck <;> simp
        rw [waitRun_halted w s _ h2]
        simp

theorem waitStep_signalers_subset {ε : Type} (w : Option ε) (s : WaitState ε)
    (ev : WaitEvent ε) :
    ∀ x ∈ (waitStep w s ev).1.signalers, x ∈ s.signalers := by
  intro x hx
  cases ev with
  | closed chosen =>
      by_cases h : ((removeSignaler s.signalers chosen).1.length = 0) <;>
        simp only [waitStep, h, if_true, if_false, reduceIte] at hx <;>
        exact removeSignaler_subset s.signalers chosen x hx
  | control f =>
      cases hf : f s with
      | GracefulContinue => simpa [waitStep, hf] using hx
      | GracefulRestart => simpa [waitStep, hf] using hx
      | GracefulStop =>
          by_cases hd : s.delivered <;> simpa [waitStep, hf, hd] using hx
  | doneRecv =>
      by_cases hd : s.delivered
      · simpa [waitStep, hd] using hx
      · cases w with
        | none => simpa [waitStep, hd] using hx
        | some v => simpa [waitStep, hd] using hx

theorem waitRun_signalers_subset {ε : Type} (w : Option ε) (s : WaitState ε)
    (evs : List (WaitEvent ε)) :
    ∀ x ∈ (waitRun w s evs).1.signalers, x ∈ s.signalers := by
  induction evs generalizing s with
  | nil =>
      intro x hx
      simpa [waitRun] using hx
  | cons ev evs ih =>
      intro x hx
      by_cases h : (s.running && !s.stuck) = true
      · simp only [waitRun, h, if_true] at hx
        exact waitStep_signalers_subset w s ev x (ih _ x hx)
      · have h2 : s.running = false ∨ s.stuck = true := by
          revert h
          cases s.running <;> cases s.stuck <;> simp
        rw [waitRun_halted w s _ h2] at hx
        exact hx

/-! ### Lemmas about the worker goroutine -/

theorem workerRun_halted {ε : Type} (s : WorkerState ε) (its : List (WIter ε))
    (h : s.running = false) : workerRun s its = (s, []) := by
  cases its <;> simp [workerRun, h]

theorem workerStep_no_pushDone {ε : Type} (s : WorkerState ε) (it : WIter ε) :
    (workerStep s it).2.countP (fun e => isPushDone e) = 0 := by
  rw [List.countP_eq_zero]
  intro a ha
  rcases it with ⟨act, e, s1, s2⟩
  cases act with
  | GracefulContinue =>
      simp only [workerStep] at ha
      split at ha
      · simp only [List.mem_singleton] at ha
        simp [ha, isPushDone]
      · split at ha <;>
          simp only [List.mem_append, List.mem_cons, List.mem_singleton,
            List.not_mem_nil, or_false] at ha <;>
          rcases ha with ha | ha | ha <;> simp_all [isPushDone]
  | GracefulStop =>
      simp only [workerStep, List.mem_singleton] at ha
      simp [ha, isPushDone]
  | GracefulRestart =>
      simp only [workerStep, List.mem_singleton] at ha
      simp [ha, isPushDone]

theorem workerRun_no_pushDone {ε : Type} (s : WorkerState ε)
    (its : List (WIter ε)) :
    (workerRun s its).2.countP (fun e => isPushDone e) = 0 := by
  induction its generalizing s with
  | nil => simp [workerRun]
  | cons it its ih =>
      by_cases h : s.running = true
      · simp only [workerRun, h, if_true]
        rw [List.countP_append, workerStep_no_pushDone, ih]
      · rw [workerRun_halted s _ (by revert h; cases s.running <;> simp)]
        simp

theorem workerStep_ctxGen {ε : Type} (s : WorkerState ε) (it : WIter ε) :
    (gensOf (workerStep s it).2 = [] ∧
      (workerStep s it).1.ctxGen = s.ctxGen) ∨
    (gensOf (workerStep s it).2 = [s.ctxGen + 1] ∧
      (workerStep s it).1.ctxGen = s.ctxGen + 1) := by
  rcases it with ⟨act, e, s1, s2⟩
  cases act with
  | GracefulContinue =>
      by_cases h1 : s1 ≠ ManagerStateEnum.Running
      · left
        simp [workerStep, h1, gensOf]
      · have h1eq : s1 = ManagerStateEnum.Running := not_not.mp h1
        cases s2 with
        | Unconfigured => left; simp [workerStep, h1eq, gensOf]
        | New => left; simp [workerStep, h1eq, gensOf]
        | Running => left; simp [workerStep, h1eq, gensOf]
        | Restarting => right; simp [workerStep, h1eq, gensOf]
        | Dying => left; simp [workerStep, h1eq, gensOf]
        | Dead => left; simp [workerStep, h1eq, gensOf]
  | GracefulStop =>
      left
      simp [workerStep, gensOf]
  | GracefulRestart =>
      left
      simp [workerStep, gensOf]

theorem workerRun_ctxGen_le {ε : Type} (s : WorkerState ε)
    (its : List (WIter ε)) : s.ctxGen ≤ (workerRun s its).1.ctxGen := by
  induction its generalizing s with
  | nil => simp [workerRun]
  | cons it its ih =>
      by_cases h : s.running = true
      · simp only [workerRun, h, if_true]
        rcases workerStep_ctxGen s it with ⟨_, hg⟩ | ⟨_, hg⟩
        · exact le_of_eq hg.symm |>.trans (ih _)
        · exact le_trans (by omega) (hg ▸ ih _)
      · rw [workerRun_halted s _ (by revert h; cases s.running <;> simp)]

theorem workerRun_gens {ε : Type} (s : WorkerState ε)
    (its : List (WIter ε)) :
    gensOf (workerRun s its).2 =
      List.range' (s.ctxGen + 1) ((workerRun s its).1.ctxGen - s.ctxGen) := by
  induction its generalizing s with
  | nil => simp [workerRun, gensOf]
  | cons it its ih =>
      by_cases h : s.running = true
      · simp only [workerRun, h, if_true]
        have happ : gensOf ((workerStep s it).2 ++
            (workerRun (workerStep s it).1 its).2) =
            gensOf (workerStep s it).2 ++
              gensOf (workerRun (workerStep s it).1 its).2 := by
          simp [gensOf]
        rw [happ, ih]
        rcases workerStep_ctxGen s it with ⟨hg, he⟩ | ⟨hg, he⟩
        · rw [hg, he]
          simp
        · rw [hg, he]
          have hle : s.ctxGen + 1 ≤
              (workerRun (workerStep s it).1 its).1.ctxGen := by
            rw [← he]
            exact workerRun_ctxGen_le _ _
          have harith : (workerRun (workerStep s it).1 its).1.ctxGen - s.ctxGen
              = ((workerRun (workerStep s it).1 its).1.ctxGen - (s.ctxGen + 1))
                + 1 := by omega
          rw [harith, List.range'_succ]
          simp
      · rw [workerRun_halted s _ (by revert h; cases s.running <;> simp)]
        simp [gensOf]

theorem startGoroutine_state {ε : Type} (its : List (WIter ε)) :
    (startGoroutine its).1 =
      (workerRun { ctxGen := 0, running := true, err := none } its).1 := by
  unfold startGoroutine
  by_cases h : (workerRun { ctxGen := 0, running := true, err := none }
      its).1.running = true <;> simp [h]

theorem startGoroutine_gens {ε : Type} (its : List (WIter ε)) :
    gensOf (startGoroutine its).2 =
      List.range ((startGoroutine its).1.ctxGen + 1) := by
  have key : gensOf (startGoroutine its).2 =
      0 :: gensOf (workerRun { ctxGen := 0, running := true, err := none }
        its).2 := by
    unfold startGoroutine
    by_cases h : (workerRun { ctxGen := 0, running := true, err := none }
        its).1.running = true <;> simp [h, gensOf]
  rw [key, startGoroutine_state, workerRun_gens]
  rw [List.range_eq_range', List.range'_succ]
  simp

theorem startGoroutine_push {ε : Type} (its : List (WIter ε))
    (h : (startGoroutine its).1.running = false) :
    (startGoroutine its).2.countP (fun e => isPushDone e) = 1 ∧
    ∀ e, WEffect.pushDone e ∈ (startGoroutine its).2 →
      e = (startGoroutine its).1.err := by
  rw [startGoroutine_state] at h
  have htr : (startGoroutine its).2 =
      (WEffect.ctxNew 0 :: WEffect.stateSet ManagerStateEnum.Running ::
        (workerRun { ctxGen := 0, running := true, err := none } its).2) ++
      [WEffect.pushDone
        (workerRun { ctxGen := 0, running := true, err := none } its).1.err] := by
    unfold startGoroutine
    simp [h]
  constructor
  · rw [htr, List.countP_append, List.countP_cons, List.countP_cons,
      workerRun_no_pushDone]
    simp [isPushDone]
  · intro e he
    rw [startGoroutine_state]
    rw [htr] at he
    simp only [List.cons_append, List.mem_cons, List.mem_append,
      List.mem_singleton, List.not_mem_nil, or_false] at he
    rcases he with he | he | he | he
    · exact absurd he (by simp)
    · exact absurd he (by simp)
    · have hz := workerRun_no_pushDone
        ({ ctxGen := 0, running := true, err := none } : WorkerState ε) its
      rw [List.countP_eq_zero] at hz
      have hcontra := hz _ he
      simp [isPushDone] at hcontra
    · exact (WEffect.pushDone.injEq _ _).mp he

/-! ### Branch-level characterizations of the `Wait` loop body -/

theorem waitStep_stop {ε : Type} (w : Option ε) (s : WaitState ε)
    (f : WaitState ε → GracefulAction)
    (hf : f s = GracefulAction.GracefulStop) (hd : s.delivered = false) :
    waitStep w s (WaitEvent.control f) =
      ({ s with
          state := ManagerStateEnum.Dying
          err := w
          delivered := true
          running := false },
        Effect.setState ManagerStateEnum.Dying :: Effect.cancelCtx ::
          (cancelSignalers s.signalers ++ [Effect.recvDone])) := by
  simp [waitStep, hf, hd]

theorem waitStep_stop_delivered {ε : Type} (w : Option ε) (s : WaitState ε)
    (f : WaitState ε → GracefulAction)
    (hf : f s = GracefulAction.GracefulStop) (hd : s.delivered = true) :
    waitStep w s (WaitEvent.control f) =
      ({ s with state := ManagerStateEnum.Dying, stuck := true },
        Effect.setState ManagerStateEnum.Dying :: Effect.cancelCtx ::
          cancelSignalers s.signalers) := by
  simp [waitStep, hf, hd]

theorem waitStep_restart {ε : Type} (w : Option ε) (s : WaitState ε)
    (f : WaitState ε → GracefulAction)
    (hf : f s = GracefulAction.GracefulRestart) :
    waitStep w s (WaitEvent.control f) =
      ({ s with state := ManagerStateEnum.Restarting },
        [Effect.setState ManagerStateEnum.Restarting, Effect.cancelCtx]) := by
  simp [waitStep, hf]

theorem waitRun_single {ε : Type} (w : Option ε) (s : WaitState ε)
    (ev : WaitEvent ε) (h : (s.running && !s.stuck) = true) :
    waitRun w s [ev] = waitStep w s ev := by
  simp [waitRun, h]

theorem waitStep_closed_signalers {ε : Type} (w : Option ε) (s : WaitState ε)
    (i : Nat) :
    (waitStep w s (WaitEvent.closed i)).1.signalers =
      (removeSignaler s.signalers i).1 := by
  by_cases h : ((removeSignaler s.signalers i).1.length = 0) <;>
    simp [waitStep, h]

theorem waitStep_signalers_nodup {ε : Type} (w : Option ε) (s : WaitState ε)
    (ev : WaitEvent ε) (hnd : s.signalers.Nodup) :
    (waitStep w s ev).1.signalers.Nodup := by
  cases ev with
  | closed chosen =>
      rw [waitStep_closed_signalers]
      exact removeSignaler_nodup s.signalers chosen hnd
  | control f =>
      cases hf : f s with
      | GracefulContinue => simpa [waitStep, hf] using hnd
      | GracefulRestart => simpa [waitStep, hf] using hnd
      | GracefulStop =>
          by_cases hd : s.delivered <;> simpa [waitStep, hf, hd] using hnd
  | doneRecv =>
      by_cases hd : s.delivered
      · simpa [waitStep, hd] using hnd
      · cases w with
        | none => simpa [waitStep, hd] using hnd
        | some v => simpa [waitStep, hd] using hnd

theorem waitRun_signalers_nodup {ε : Type} (w : Option ε) (s : WaitState ε)
    (evs : List (WaitEvent ε)) (hnd : s.signalers.Nodup) :
    (waitRun w s evs).1.signalers.Nodup := by
  induction evs generalizing s with
  | nil => simpa [waitRun] using hnd
  | cons ev evs ih =>
      by_cases h : (s.running && !s.stuck) = true
      · simp only [waitRun, h, if_true]
        exact ih _ (waitStep_signalers_nodup w s ev hnd)
      · rw [waitRun_halted w s _ (by revert h; cases s.running <;>
          cases s.stuck <;> simp)]
        exact hnd

theorem cancelSignalers_count (sigs : List Nat) (x : Nat) :
    (cancelSignalers sigs).count (Effect.cancelSignaler x) = sigs.count x := by
  unfold cancelSignalers
  exact List.count_map_of_injective sigs Effect.cancelSignaler
    (fun a b hab => by cases hab; rfl) x

/-! ### The claims -/

/-- Claim C1 (code bug).  Second conjunct: whenever the loop is live, not
stuck, and the worker's single completion value has not yet been consumed, a
control function evaluating to stop makes `Wait` exit its loop, set the state
to `Dead`, and return `w` — the value the worker pushes onto
`waitForIteratorDone`, i.e. its last reported error, `none` for a clean
exit.  First conjunct, the failing input: if the worker already completed
cleanly and its nil completion value was consumed by the multiplexed receive
(where it matches neither type-switch case and is dropped), a subsequent stop
control function blocks forever in `err = <-s.waitForIteratorDone` and `Wait`
never returns, so the claim's universal statement fails on the code. -/
theorem stop_after_dropped_nil_deadlocks :
    (wait (ε := Nat) none [0] ManagerStateEnum.Running
      [WaitEvent.doneRecv,
       WaitEvent.control (fun _ => GracefulAction.GracefulStop)] = none) ∧
    (∀ (ε : Type) (w : Option ε) (sigs : List Nat) (st : ManagerStateEnum)
      (evs : List (WaitEvent ε)) (f : WaitState ε → GracefulAction),
      (waitRun w (initWaitState sigs st) evs).1.running = true →
      (waitRun w (initWaitState sigs st) evs).1.stuck = false →
      (waitRun w (initWaitState sigs st) evs).1.delivered = false →
      f (waitRun w (initWaitState sigs st) evs).1 =
        GracefulAction.GracefulStop →
      wait w sigs st (evs ++ [WaitEvent.control f]) =
        some (w, ManagerStateEnum.Dead,
          ((waitRun w (initWaitState sigs st) evs).2 ++
            (Effect.setState ManagerStateEnum.Dying :: Effect.cancelCtx ::
              (cancelSignalers
                (waitRun w (initWaitState sigs st) evs).1.signalers ++
                [Effect.recvDone]))) ++
          [Effect.setState ManagerStateEnum.Dead])) := by
  constructor
  · rfl
  · intro ε w sigs st evs f hrun hstuck hdeliv hf
    have hguard : ((waitRun w (initWaitState sigs st) evs).1.running &&
        !(waitRun w (initWaitState sigs st) evs).1.stuck) = true := by
      rw [hrun, hstuck]
      rfl
    unfold wait
    rw [waitRun_append, waitRun_single w _ _ hguard,
      waitStep_stop w _ f hf hdeliv]
    simp

/-- Witness for C1's hypotheses: a single stop control function on a fresh
coordinator with registry `[7]` returns the worker's value `some 3` and the
state ends `Dead`. -/
theorem stop_after_dropped_nil_deadlocks_witness :
    wait (ε := Nat) (some 3) [7] ManagerStateEnum.Running
      ([] ++ [WaitEvent.control (fun _ => GracefulAction.GracefulStop)]) =
      some (some 3, ManagerStateEnum.Dead,
        [Effect.setState ManagerStateEnum.Dying, Effect.cancelCtx,
         Effect.cancelSignaler 7, Effect.recvDone,
         Effect.setState ManagerStateEnum.Dead]) :=
  stop_after_dropped_nil_deadlocks.2 Nat (some 3) [7]
    ManagerStateEnum.Running [] (fun _ => GracefulAction.GracefulStop)
    rfl rfl rfl rfl

/-- Claim C2 (code bug).  Second conjunct: a non-nil value delivered by the
multiplexed receive from the completion channel makes `Wait` cancel every
remaining signaler, cancel the context, capture the value and leave the loop
without a second receive, as the claim describes.  First conjunct, the
failing input: a nil (clean-exit) value delivered the same way matches
neither `case SignalControl:` nor `case error:` of the type switch — it is
consumed from the channel and dropped, no signaler is cancelled, nothing is
captured, and the loop keeps running, contradicting the claim's "including a
nil value". -/
theorem nil_completion_dropped :
    waitStep (ε := Nat) none (initWaitState [0] ManagerStateEnum.Running)
      WaitEvent.doneRecv =
      ({ initWaitState (ε := Nat) [0] ManagerStateEnum.Running with
          delivered := true }, []) ∧
    waitStep (ε := Nat) (some 3) (initWaitState [0] ManagerStateEnum.Running)
      WaitEvent.doneRecv =
      ({ initWaitState (ε := Nat) [0] ManagerStateEnum.Running with
          err := some 3
          delivered := true
          running := false },
        [Effect.cancelSignaler 0, Effect.cancelCtx]) :=
  ⟨rfl, rfl⟩

/-- Claim C3 counterexample: with registry `[0, 1]`, signaler 0 is evicted
after its channel closes; the worker then completes with `some 5` and the
final teardown runs — but `Cancel` is issued only to signaler 1, never to the
evicted signaler 0, refuting "its cancel is still invoked during final
teardown". -/
theorem evicted_signaler_not_cancelled :
    (waitRun (ε := Nat) (some 5) (initWaitState [0, 1] ManagerStateEnum.Running)
      [WaitEvent.closed 0, WaitEvent.doneRecv]).2 =
      [Effect.cancelSignaler 1, Effect.cancelCtx] ∧
    Effect.cancelSignaler 0 ∉
      (waitRun (ε := Nat) (some 5) (initWaitState [0, 1] ManagerStateEnum.Running)
        [WaitEvent.closed 0, WaitEvent.doneRecv]).2 :=
  ⟨rfl, by decide⟩

/-- Claim C3 as amended: once a signaler is evicted (registry indices
distinct), it never reappears in the registry, is never part of any later
receive set, and the teardown pass does not issue `Cancel` to it; every
signaler still registered at that point receives `Cancel` exactly once. -/
theorem eviction_permanent_cancel_once {ε : Type} (w : Option ε)
    (s : WaitState ε) (i : Nat) (hi : i < s.signalers.length)
    (hnd : s.signalers.Nodup) :
    s.signalers[i] ∉ (waitStep w s (WaitEvent.closed i)).1.signalers ∧
    ∀ evs : List (WaitEvent ε),
      SelectCase.signaler s.signalers[i] ∉ buildSelectCases
        (waitRun w (waitStep w s (WaitEvent.closed i)).1 evs).1.signalers ∧
      (cancelSignalers
        (waitRun w (waitStep w s (WaitEvent.closed i)).1 evs).1.signalers).count
          (Effect.cancelSignaler s.signalers[i]) = 0 ∧
      ∀ x ∈ (waitRun w (waitStep w s (WaitEvent.closed i)).1 evs).1.signalers,
        (cancelSignalers
          (waitRun w (waitStep w s (WaitEvent.closed i)).1 evs).1.signalers).count
            (Effect.cancelSignaler x) = 1 := by
  have hout : s.signalers[i] ∉ (waitStep w s (WaitEvent.closed i)).1.signalers := by
    rw [waitStep_closed_signalers]
    exact getElem_not_mem_removeSignaler s.signalers i hi hnd
  refine ⟨hout, fun evs => ?_⟩
  have hlater : s.signalers[i] ∉
      (waitRun w (waitStep w s (WaitEvent.closed i)).1 evs).1.signalers := by
    intro hmem
    exact hout (waitRun_signalers_subset w _ evs _ hmem)
  have hnd2 : (waitRun w (waitStep w s (WaitEvent.closed i)).1
      evs).1.signalers.Nodup :=
    waitRun_signalers_nodup w _ evs (waitStep_signalers_nodup w s _ hnd)
  refine ⟨?_, ?_, ?_⟩
  · rw [signaler_mem_buildSelectCases]
    exact hlater
  · rw [cancelSignalers_count]
    exact List.count_eq_zero_of_not_mem hlater
  · intro x hx
    rw [cancelSignalers_count]
    exact List.count_eq_one_of_mem hnd2 hx

/-- Witness for C3's amended statement at registry `[0, 1]`, evicting index
0 and running no further events. -/
theorem eviction_permanent_cancel_once_witness :
    (initWaitState (ε := Nat) [0, 1] ManagerStateEnum.Running).signalers[0] ∉
      (waitStep (ε := Nat) none
        (initWaitState [0, 1] ManagerStateEnum.Running)
        (WaitEvent.closed 0)).1.signalers :=
  (eviction_permanent_cancel_once (ε := Nat) none
    (initWaitState [0, 1] ManagerStateEnum.Running) 0 (by decide)
    (by decide)).1

/-- Claim C4 counterexample: at a concrete stop the loop body performs
`setState(Dying)` BEFORE `cancelFunc()` — the trace is
`[setState Dying, cancelCtx, cancelSignaler 0, recvDone]`, which differs from
the order the claim prescribes (context cancellation first, then the `Dying`
transition). -/
theorem stop_order_counterexample :
    (waitStep (ε := Nat) none (initWaitState [0] ManagerStateEnum.Running)
      (WaitEvent.control (fun _ => GracefulAction.GracefulStop))).2 =
      [Effect.setState ManagerStateEnum.Dying, Effect.cancelCtx,
       Effect.cancelSignaler 0, Effect.recvDone] ∧
    [Effect.setState ManagerStateEnum.Dying, Effect.cancelCtx,
       Effect.cancelSignaler 0, Effect.recvDone] ≠
      [Effect.cancelCtx, Effect.setState ManagerStateEnum.Dying,
       Effect.cancelSignaler 0, Effect.recvDone] :=
  ⟨rfl, by decide⟩

/-- Claim C4 as amended: on a stop control function the loop body performs,
in this order: set state to `Dying`, cancel the execution context, issue
`Cancel` to every remaining signaler, then block on the completion channel.
If the completion value has not yet been consumed, the blocking receive
completes, the value is captured and the loop is left (first conjunct); if
it was already consumed by an earlier multiplexed receive (a dropped nil
completion), the receive never completes and the loop is never left (second
conjunct: the state is marked stuck, the trace carries no completion
receive).  In either case no `Wait` run ever completes the blocking
completion receive of the stop branch more than once (third conjunct). -/
theorem stop_sequence_actual_order {ε : Type} (w : Option ε)
    (s : WaitState ε) (f : WaitState ε → GracefulAction)
    (hf : f s = GracefulAction.GracefulStop) :
    (s.delivered = false →
      waitStep w s (WaitEvent.control f) =
        ({ s with
            state := ManagerStateEnum.Dying
            err := w
            delivered := true
            running := false },
          Effect.setState ManagerStateEnum.Dying :: Effect.cancelCtx ::
            (cancelSignalers s.signalers ++ [Effect.recvDone]))) ∧
    (s.delivered = true →
      waitStep w s (WaitEvent.control f) =
        ({ s with state := ManagerStateEnum.Dying, stuck := true },
          Effect.setState ManagerStateEnum.Dying :: Effect.cancelCtx ::
            cancelSignalers s.signalers)) ∧
    ∀ (s0 : WaitState ε) (evs : List (WaitEvent ε)),
      (waitRun w s0 evs).2.count Effect.recvDone ≤ 1 :=
  ⟨fun hd => waitStep_stop w s f hf hd,
   fun hd => waitStep_stop_delivered w s f hf hd,
   fun s0 evs => waitRun_recvDone_le_one w s0 evs⟩

/-- Witness for C4's amended statement at registry `[4, 9]`, completion
value not yet consumed. -/
theorem stop_sequence_actual_order_witness :
    waitStep (ε := Nat) (some 2) (initWaitState [4, 9] ManagerStateEnum.Running)
      (WaitEvent.control (fun _ => GracefulAction.GracefulStop)) =
      ({ initWaitState (ε := Nat) [4, 9] ManagerStateEnum.Running with
          state := ManagerStateEnum.Dying
          err := some 2
          delivered := true
          running := false },
        Effect.setState ManagerStateEnum.Dying :: Effect.cancelCtx ::
          (cancelSignalers [4, 9] ++ [Effect.recvDone])) :=
  (stop_sequence_actual_order (ε := Nat) (some 2)
    (initWaitState [4, 9] ManagerStateEnum.Running)
    (fun _ => GracefulAction.GracefulStop) rfl).1 rfl

/-- Claim C5 (code bug): a restart transition (worker blocked in the
continue branch, context cancelled, observed state `Restarting`) cancels the
old context, creates a fresh one and re-invokes the routine — but emits no
state write at all (second conjunct), so the manager state remains
`Restarting` instead of transitioning back to `Running`.  First conjunct:
consequently, when the re-invoked routine next returns `GracefulContinue`,
the `s.State() != Running` guard observes `Restarting` and terminates the
worker loop, pushing its final value to the wait loop. -/
theorem restart_transition_keeps_restarting :
    startGoroutine (ε := Nat)
      [mkIter GracefulAction.GracefulContinue none
         ManagerStateEnum.Running ManagerStateEnum.Restarting,
       mkIter GracefulAction.GracefulContinue none
         ManagerStateEnum.Restarting ManagerStateEnum.Restarting] =
      ({ ctxGen := 1, running := false, err := none },
       [WEffect.ctxNew 0, WEffect.stateSet ManagerStateEnum.Running,
        WEffect.invoke 0, WEffect.ctxCancel 0, WEffect.ctxNew 1,
        WEffect.invoke 1, WEffect.pushDone none]) ∧
    (workerStep (ε := Nat) { ctxGen := 0, running := true, err := none }
      (mkIter GracefulAction.GracefulContinue none
        ManagerStateEnum.Running ManagerStateEnum.Restarting)).2 =
      [WEffect.invoke 0, WEffect.ctxCancel 0, WEffect.ctxNew 1] :=
  ⟨rfl, rfl⟩

/-- Claim C6 counterexample: `Wait`'s restart branch runs
`setState(Restarting)` before `cancelFunc()`, so a worker that is still
executing the routine (not yet blocked in the context select) returns
`GracefulContinue` after the cancellation and observes `Restarting` at the
`s.State() != Running` guard.  First conjunct: such a worker terminates after
a single invocation, with context generation still 0 (no fresh context, no
re-invocation), pushing its error `some 5`.  Second conjunct: `Wait`, having
processed the restart control function, then receives that completion value
and returns — so a control function evaluating to restart does cause `Wait`
to return, refuting the claim. -/
theorem restart_can_cause_wait_return :
    startGoroutine (ε := Nat)
      [mkIter GracefulAction.GracefulContinue (some 5)
        ManagerStateEnum.Restarting ManagerStateEnum.Restarting] =
      ({ ctxGen := 0, running := false, err := some 5 },
       [WEffect.ctxNew 0, WEffect.stateSet ManagerStateEnum.Running,
        WEffect.invoke 0, WEffect.pushDone (some 5)]) ∧
    wait (ε := Nat) (some 5) [0] ManagerStateEnum.Running
      [WaitEvent.control (fun _ => GracefulAction.GracefulRestart),
       WaitEvent.doneRecv] =
      some (some 5, ManagerStateEnum.Dead,
        [Effect.setState ManagerStateEnum.Restarting, Effect.cancelCtx,
         Effect.cancelSignaler 0, Effect.cancelCtx,
         Effect.setState ManagerStateEnum.Dead]) :=
  ⟨rfl, rfl⟩

/-- Claim C6 as amended: a control function evaluating to restart never
terminates the `Wait` loop at the restart event itself (loop flag and
captured error unchanged; the branch only sets `Restarting` and cancels the
context).  When the worker observes the cancellation while blocked on its
context (state still `Running` at the guard, `Restarting` in the select), it
is re-invoked with a fresh execution context of the next generation, the
generations ever issued being exactly `0, 1, ..., final` — each fresh
context distinct from every previously issued one, so cancelling an old
generation never affects it.  But because the state is set to `Restarting`
before the context is cancelled, a worker that instead observes `Restarting`
already at the `State() != Running` guard terminates without re-invocation
and without a fresh context (last conjunct), after which `Wait` receives its
completion value and returns. -/
theorem restart_continues_fresh_context {ε : Type} (w : Option ε)
    (s : WaitState ε) (f : WaitState ε → GracefulAction)
    (hf : f s = GracefulAction.GracefulRestart) :
    (waitStep w s (WaitEvent.control f)).1.running = s.running ∧
    (waitStep w s (WaitEvent.control f)).1.err = s.err ∧
    (waitStep w s (WaitEvent.control f)).2 =
      [Effect.setState ManagerStateEnum.Restarting, Effect.cancelCtx] ∧
    (∀ (ws : WorkerState ε) (e : Option ε),
      (workerStep ws (mkIter GracefulAction.GracefulContinue e
        ManagerStateEnum.Running ManagerStateEnum.Restarting)).1.ctxGen =
          ws.ctxGen + 1 ∧
      (workerStep ws (mkIter GracefulAction.GracefulContinue e
        ManagerStateEnum.Running ManagerStateEnum.Restarting)).1.running =
          ws.running) ∧
    (∀ its : List (WIter ε),
      gensOf (startGoroutine its).2 =
        List.range ((startGoroutine its).1.ctxGen + 1)) ∧
    (∀ (ws : WorkerState ε) (e : Option ε) (sb : ManagerStateEnum),
      (workerStep ws (mkIter GracefulAction.GracefulContinue e
        ManagerStateEnum.Restarting sb)).1.running = false ∧
      (workerStep ws (mkIter GracefulAction.GracefulContinue e
        ManagerStateEnum.Restarting sb)).1.ctxGen = ws.ctxGen) := by
  refine ⟨?_, ?_, ?_, ?_, fun its => startGoroutine_gens its, ?_⟩
  · rw [waitStep_restart w s f hf]
  · rw [waitStep_restart w s f hf]
  · rw [waitStep_restart w s f hf]
  · intro ws e
    constructor <;> simp [workerStep, mkIter]
  · intro ws e sb
    constructor <;> simp [workerStep, mkIter]

/-- Witness for C6 at a concrete restart control function. -/
theorem restart_continues_fresh_context_witness :
    (waitStep (ε := Nat) none (initWaitState [2] ManagerStateEnum.Running)
      (WaitEvent.control (fun _ => GracefulAction.GracefulRestart))).2 =
      [Effect.setState ManagerStateEnum.Restarting, Effect.cancelCtx] :=
  (restart_continues_fresh_context (ε := Nat) none
    (initWaitState [2] ManagerStateEnum.Running)
    (fun _ => GracefulAction.GracefulRestart) rfl).2.2.1

/-- Claim C7 (code bug): when the last signaler's channel closes while the
worker is still running (it will later push `some 7`), `Wait` does not block
for the completion value — it breaks out of the loop at once, sets `Dead` and
returns nil; its full effect trace is just `[setState Dead]`, containing no
receive on the completion channel. -/
theorem empty_registry_returns_without_completion :
    wait (ε := Nat) (some 7) [0] ManagerStateEnum.Running
      [WaitEvent.closed 0] =
      some (none, ManagerStateEnum.Dead,
        [Effect.setState ManagerStateEnum.Dead]) ∧
    Effect.recvDone ∉ [Effect.setState ManagerStateEnum.Dead] :=
  ⟨rfl, by decide⟩

/-- Claim C8 counterexample: the routine returns `GracefulRestart` together
with the error `some 5`; the worker loop does not terminate (first conjunct:
the loop flag is untouched), the routine is invoked a second time, and the
value finally pushed is `none` — the later invocation's result supersedes the
error, the opposite of what the claim states. -/
theorem error_alongside_restart_continues :
    (workerStep (ε := Nat) { ctxGen := 0, running := true, err := none }
      (mkIter GracefulAction.GracefulRestart (some 5)
        ManagerStateEnum.Running ManagerStateEnum.Running)).1.running = true ∧
    startGoroutine (ε := Nat)
      [mkIter GracefulAction.GracefulRestart (some 5)
         ManagerStateEnum.Running ManagerStateEnum.Running,
       mkIter GracefulAction.GracefulStop none
         ManagerStateEnum.Running ManagerStateEnum.Running] =
      ({ ctxGen := 0, running := false, err := none },
       [WEffect.ctxNew 0, WEffect.stateSet ManagerStateEnum.Running,
        WEffect.invoke 0, WEffect.invoke 0, WEffect.pushDone none]) :=
  ⟨rfl, rfl⟩

/-- Claim C8 as amended: an error returned alongside `GracefulRestart` does
not terminate the worker loop (termination is decided by the action/state
logic alone), and whenever the worker loop has terminated, the task pushes a
value onto the completion channel exactly once, that value being the error of
the final routine invocation. -/
theorem loop_exit_pushes_last_error_once {ε : Type} :
    (∀ (ws : WorkerState ε) (e : Option ε) (sa sb : ManagerStateEnum),
      (workerStep ws (mkIter GracefulAction.GracefulRestart e sa sb)).1.running
        = ws.running) ∧
    (∀ its : List (WIter ε), (startGoroutine its).1.running = false →
      (startGoroutine its).2.countP (fun e => isPushDone e) = 1 ∧
      ∀ e, WEffect.pushDone e ∈ (startGoroutine its).2 →
        e = (startGoroutine its).1.err) := by
  constructor
  · intro ws e sa sb
    simp [workerStep, mkIter]
  · intro its h
    exact startGoroutine_push its h

/-- Witness for C8's amended statement: a single iteration returning
`GracefulStop` with error `some 3` ends the loop and the trace contains
exactly one completion push. -/
theorem loop_exit_pushes_last_error_once_witness :
    (startGoroutine (ε := Nat)
      [mkIter GracefulAction.GracefulStop (some 3)
        ManagerStateEnum.Running ManagerStateEnum.Running]).2.countP
      (fun e => isPushDone e) = 1 :=
  ((loop_exit_pushes_last_error_once (ε := Nat)).2
    [mkIter GracefulAction.GracefulStop (some 3)
      ManagerStateEnum.Running ManagerStateEnum.Running] rfl).1

end Gracefully
